import Mathlib

/-!
Verification of the finance-track billing-cycle and ledger-aggregation core.

The definitions below are a shallow embedding of the Python/Django source in
`src/core/models.py` and `src/core/views.py`:

* dates are triples (year, month, day) with Python's `datetime.date`
  constructor modelled as a partial function (`mkDate`), since it raises
  `ValueError` on out-of-range days;
* `dateutil.relativedelta(months=k)` is `addMonthsClip` (it clips the
  day-of-month to the target month's length);
* Django model instances are records; the database is an explicit state
  (`St`) of lists of records with fresh-id counters; `get_or_create` is a
  `find?`-then-append on those lists;
* `Decimal` amounts (2 decimal places) are rationals, and Python's
  `round(x, 2)` on `Decimal` is banker's rounding, `roundHalfEven2`;
* presentation-only string fields (account labels, category names shown in
  templates) are omitted from the aggregation items, which keep the fields
  the computation reads: date, amount, type, invoice/predicted flags and
  the source record id.
-/

/-- Leap-year test, as Python's `calendar.isleap` used by `datetime.date`. -/
def isLeapYear (y : Int) : Bool :=
  y % 4 == 0 && (y % 100 != 0 || y % 400 == 0)

/-- Number of days of month `m` (1..12) of year `y`, Gregorian calendar. -/
def daysInMonth (y : Int) (m : Nat) : Nat :=
  if m = 2 then (if isLeapYear y then 29 else 28)
  else if m = 4 ∨ m = 6 ∨ m = 9 ∨ m = 11 then 30
  else 31

/-- A calendar date as Python's `datetime.date` stores it. -/
structure Date where
  year : Int
  month : Nat
  day : Nat
deriving DecidableEq, Repr

/-- The invariant `datetime.date` guarantees for constructed values. -/
def Date.Valid (d : Date) : Prop :=
  1 ≤ d.month ∧ d.month ≤ 12 ∧ 1 ≤ d.day ∧ d.day ≤ daysInMonth d.year d.month

instance (d : Date) : Decidable d.Valid := by
  unfold Date.Valid; infer_instance

/-- Python's `datetime.date(y, m, d)` constructor: raises `ValueError`
(here: `none`) unless the triple is a calendar-valid date. -/
def mkDate (y : Int) (m : Nat) (d : Nat) : Option Date :=
  if 1 ≤ m ∧ m ≤ 12 ∧ 1 ≤ d ∧ d ≤ daysInMonth y m then some ⟨y, m, d⟩ else none

/-- `d + relativedelta(months := k)` from `dateutil`: advances the month,
clipping the day to the last valid day of the target month. -/
def addMonthsClip (d : Date) (k : Nat) : Date :=
  let m0 : Nat := d.month - 1 + k
  let y : Int := d.year + (m0 / 12 : Nat)
  let m : Nat := m0 % 12 + 1
  ⟨y, m, min d.day (daysInMonth y m)⟩

/-- The calendar successor of a (year, month) pair; used to phrase the
spec's "one calendar month later" independently of `addMonthsClip`. -/
def nextYM (y : Int) (m : Nat) : Int × Nat :=
  if m = 12 then (y + 1, 1) else (y, m + 1)

/-- "year/month of `d` plus `i` calendar months", as `i` successive steps. -/
def ymIter (y : Int) (m : Nat) (i : Nat) : Int × Nat :=
  Nat.rec (y, m) (fun _ p => nextYM p.1 p.2) i

/-- Lexicographic strict order on dates (Python's `date.__lt__`). -/
def dateLt (a b : Date) : Prop :=
  a.year < b.year ∨ (a.year = b.year ∧
    (a.month < b.month ∨ (a.month = b.month ∧ a.day < b.day)))

instance (a b : Date) : Decidable (dateLt a b) := by
  unfold dateLt; infer_instance

/-- Lexicographic order on dates (Python's `date.__le__`). -/
def dateLe (a b : Date) : Prop := dateLt a b ∨ a = b

instance (a b : Date) : Decidable (dateLe a b) := by
  unfold dateLe; infer_instance

/-- Banker's rounding of a rational to an integer: the policy of Python's
`round` / `Decimal` default context (`ROUND_HALF_EVEN`). -/
def roundHalfEvenInt (x : ℚ) : ℤ :=
  let f : ℤ := ⌊x⌋
  let r : ℚ := x - f
  if r < 1/2 then f
  else if 1/2 < r then f + 1
  else if f % 2 = 0 then f else f + 1

/-- `round(x, 2)` on a `Decimal` amount: banker's rounding at 2 decimals. -/
def roundHalfEven2 (x : ℚ) : ℚ :=
  (roundHalfEvenInt (x * 100) : ℚ) / 100

/-- Transaction type: the `TRANSACTION_TYPE_CHOICES` of the model,
`"IN"` (Receita) and `"OUT"` (Despesa). -/
inductive TType where
  | tIN : TType
  | tOUT : TType
deriving DecidableEq, Repr

/-- One installment draft, as built inside the loop of
`TransactionCreateView.form_valid` (`src/core/views.py`, lines 344-355):
the arguments handed to `Transaction.objects.create` for installment `i`. -/
structure InstallmentDraft where
  description : String
  amount : ℚ
  ttype : TType
  date : Date
  category : Option Nat
  bankAccount : Option Nat
  creditCard : Option Nat
deriving DecidableEq, Repr

/-- Installment expansion, from `TransactionCreateView.form_valid`
(`src/core/views.py`, lines 336-357): per-installment amount is
`round(total_amount / installments, 2)`, installment `i` is dated
`start_date + relativedelta(months=i)` and its description is suffixed
with `(i+1/count)`. -/
def expandInstallments (totalAmount : ℚ) (installments : Nat) (startDate : Date)
    (description : String) (ttype : TType) (category : Option Nat)
    (bankAccount : Option Nat) (creditCard : Option Nat) :
    List InstallmentDraft :=
  let installmentAmount := roundHalfEven2 (totalAmount / installments)
  (List.range installments).map (fun i =>
    { description := description ++ " (" ++ toString (i + 1) ++ "/" ++ toString installments ++ ")"
      amount := installmentAmount
      ttype := ttype
      date := addMonthsClip startDate i
      category := category
      bankAccount := bankAccount
      creditCard := creditCard })

/-- A credit card (`CreditCard` model, `src/core/models.py`): the fields the
core logic reads (`closing_day`, `due_day`); name and limit are
presentation-only and omitted. -/
structure CreditCard where
  id : Nat
  closingDay : Nat
  dueDay : Nat
deriving DecidableEq, Repr

/-- An invoice row (`Invoice` model, `src/core/models.py`). -/
structure Invoice where
  id : Nat
  cardId : Nat
  endDate : Date
  dueDate : Date
  isPaid : Bool
  paymentDate : Option Date
deriving DecidableEq, Repr

/-- A category row (`Category` model, `src/core/models.py`). -/
structure Category where
  id : Nat
  name : String
deriving DecidableEq, Repr

/-- A transaction row (`Transaction` model, `src/core/models.py`). -/
structure Txn where
  id : Nat
  description : String
  amount : ℚ
  ttype : TType
  date : Date
  category : Option Nat
  bankAccount : Option Nat
  creditCard : Option Nat
  invoice : Option Nat
  isInvoicePayment : Bool
deriving DecidableEq, Repr

/-- The mutable store: the database tables the core reads and writes, with
fresh-id counters standing for autoincrement primary keys. -/
structure St where
  categories : List Category
  invoices : List Invoice
  transactions : List Txn
  nextCategoryId : Nat
  nextInvoiceId : Nat
  nextTxnId : Nat
deriving DecidableEq, Repr

/-- The empty database. -/
def St.empty : St := ⟨[], [], [], 0, 0, 0⟩

/-- Invoice end-date computation from `Transaction.save`
(`src/core/models.py`, lines 264-272): if the day is on or before the
closing day, `date(year, month, closing_day)` of the transaction's month,
otherwise `date(next.year, next.month, closing_day)` where `next` is the
transaction date plus one `relativedelta` month.  The `date` constructor
raises (`none`) if `closing_day` is not a valid day of that month. -/
def resolveEndDate (closingDay : Nat) (transDate : Date) : Option Date :=
  if transDate.day ≤ closingDay then
    mkDate transDate.year transDate.month closingDay
  else
    let nextMonth := addMonthsClip transDate 1
    mkDate nextMonth.year nextMonth.month closingDay

/-- Invoice due-date computation from `Transaction.save`
(`src/core/models.py`, lines 274-282): in the end date's month when
`due_day > closing_day`, otherwise in the following month (computed with
`relativedelta`); again via the raising `date` constructor. -/
def resolveDueDate (closingDay dueDay : Nat) (invoiceEndDate : Date) : Option Date :=
  if dueDay > closingDay then
    mkDate invoiceEndDate.year invoiceEndDate.month dueDay
  else
    let dueDateMonth := addMonthsClip invoiceEndDate 1
    mkDate dueDateMonth.year dueDateMonth.month dueDay

/-- `Invoice.objects.get_or_create(credit_card=card, end_date=e,
defaults={"due_date": d})` (`src/core/models.py`, lines 284-288): return
the existing row for the `(credit_card, end_date)` key, or insert a new
unpaid one with the computed due date.  Returns the resolved invoice id
and the store. -/
def getOrCreateInvoice (s : St) (cardId : Nat) (endDate dueDate : Date) : Nat × St :=
  match s.invoices.find? (fun v => decide (v.cardId = cardId ∧ v.endDate = endDate)) with
  | some v => (v.id, s)
  | none =>
      let newInv : Invoice :=
        { id := s.nextInvoiceId, cardId := cardId, endDate := endDate,
          dueDate := dueDate, isPaid := false, paymentDate := none }
      (newInv.id, { s with invoices := s.invoices ++ [newInv],
                           nextInvoiceId := s.nextInvoiceId + 1 })

/-- The user-editable input fields of a transaction (the `TransactionForm`
fields: description, amount, type, date, category). -/
structure TxnInput where
  description : String
  amount : ℚ
  ttype : TType
  date : Date
  category : Option Nat
deriving DecidableEq, Repr

/-- `Transaction.save` for a credit-card transaction
(`src/core/models.py`, lines 251-292): compute the invoice end and due
dates (raising, i.e. `none`, if either `date(...)` call fails),
get-or-create the invoice, link it, and insert the row.  Returns the
store and the id of the invoice the transaction was linked to. -/
def saveCreditCardTxn (card : CreditCard) (inp : TxnInput) (s : St) :
    Option (St × Nat) := do
  let invoiceEndDate ← resolveEndDate card.closingDay inp.date
  let invoiceDueDate ← resolveDueDate card.closingDay card.dueDay invoiceEndDate
  let p := getOrCreateInvoice s card.id invoiceEndDate invoiceDueDate
  let t : Txn :=
    { id := p.2.nextTxnId, description := inp.description, amount := inp.amount,
      ttype := inp.ttype, date := inp.date, category := inp.category,
      bankAccount := none, creditCard := some card.id, invoice := some p.1,
      isInvoicePayment := false }
  some ({ p.2 with transactions := p.2.transactions ++ [t],
                   nextTxnId := p.2.nextTxnId + 1 }, p.1)

/-- Re-saving an existing credit-card transaction after a form edit
(`TransactionUpdateView`, `src/core/views.py`, lines 363-377): the form
overwrites the editable fields and calls `Transaction.save`
(`src/core/models.py`, lines 251-292), which runs the same invoice
resolution again and overwrites the row in place.  Returns the store and
the invoice id the edited transaction ends up linked to. -/
def editCreditCardTxn (card : CreditCard) (txnId : Nat) (inp : TxnInput) (s : St) :
    Option (St × Nat) := do
  let invoiceEndDate ← resolveEndDate card.closingDay inp.date
  let invoiceDueDate ← resolveDueDate card.closingDay card.dueDay invoiceEndDate
  let p := getOrCreateInvoice s card.id invoiceEndDate invoiceDueDate
  let upd : Txn → Txn := fun t =>
    if t.id = txnId then
      { t with description := inp.description, amount := inp.amount,
               ttype := inp.ttype, date := inp.date, category := inp.category,
               invoice := some p.1 }
    else t
  some ({ p.2 with transactions := p.2.transactions.map upd }, p.1)

/-- `Category.get_payment_category` (`src/core/models.py`, lines 18-27):
`get_or_create` of the reserved category named "Pagamento de Fatura". -/
def paymentCategoryName : String := "Pagamento de Fatura"

/-- `Category.objects.get_or_create(name=...)` backing
`Category.get_payment_category`. -/
def getOrCreateCategory (s : St) (name : String) : Nat × St :=
  match s.categories.find? (fun c => decide (c.name = name)) with
  | some c => (c.id, s)
  | none =>
      (s.nextCategoryId,
       { s with categories := s.categories ++ [⟨s.nextCategoryId, name⟩],
                nextCategoryId := s.nextCategoryId + 1 })

/-- Modelled from the spec: `invoice.display_description` is referenced by
`src/core/views.py` but its definition is not under `src/`; the spec does
not constrain its text, and no claim depends on it, so it is modelled as
an arbitrary fixed rendering of the invoice. -/
def displayDescription (inv : Invoice) : String :=
  "Fatura " ++ toString inv.id

/-- Sum of the amounts of the transactions linked to invoice `invId`
(`invoice.transaction_set.aggregate(Sum("amount"))`, with `or 0` for an
empty set). -/
def invoiceTotal (txns : List Txn) (invId : Nat) : ℚ :=
  ((txns.filter (fun t => decide (t.invoice = some invId))).map (fun t => t.amount)).sum

/-- `InvoicePaymentView.form_valid` (`src/core/views.py`, lines 487-518):
look up the invoice (`get_object_or_404`, `none` when absent), compute
its total as the sum of linked transactions, create one expense
transaction dated `payment_date` on `bank_account`, categorised under the
reserved payment category and flagged `is_invoice_payment`, then mark the
invoice paid with that payment date.  Returns the store and the created
transaction.  Note: the source performs no `is_paid` check. -/
def payInvoice (s : St) (invId : Nat) (paymentDate : Date) (bankAccount : Nat) :
    Option (St × Txn) :=
  match s.invoices.find? (fun v => decide (v.id = invId)) with
  | none => none
  | some inv =>
      let totalAmount := invoiceTotal s.transactions invId
      let p := getOrCreateCategory s paymentCategoryName
      let t : Txn :=
        { id := p.2.nextTxnId, description := displayDescription inv,
          amount := totalAmount, ttype := TType.tOUT, date := paymentDate,
          category := some p.1, bankAccount := some bankAccount,
          creditCard := none, invoice := none, isInvoicePayment := true }
      let s2 := { p.2 with transactions := p.2.transactions ++ [t],
                           nextTxnId := p.2.nextTxnId + 1 }
      let s3 := { s2 with invoices := s2.invoices.map (fun v =>
                    if v.id = invId then
                      { v with isPaid := true, paymentDate := some paymentDate }
                    else v) }
      some (s3, t)

/-- One display item of the consolidated monthly view
(`TransactionConsolidatedView.get_context_data`, `src/core/views.py`,
lines 213-248).  Presentation-only string fields are omitted; `refId` is
the id of the underlying transaction or invoice (`"object"` in the
source dict). -/
structure Item where
  date : Date
  amount : ℚ
  ttype : TType
  isInvoice : Bool
  isPredicted : Bool
  refId : Nat
deriving DecidableEq, Repr

/-- The `date__year=year, date__month=month` Django filter. -/
def inMonth (year : Int) (month : Nat) (d : Date) : Prop :=
  d.year = year ∧ d.month = month

instance (y : Int) (m : Nat) (d : Date) : Decidable (inMonth y m d) := by
  unfold inMonth; infer_instance

/-- The `bank_transactions` queryset of the consolidated view
(`src/core/views.py`, lines 201-206): transactions of the month with a
bank account set and `is_invoice_payment=False`. -/
def bankTxnsOfMonth (s : St) (year : Int) (month : Nat) : List Txn :=
  s.transactions.filter (fun t =>
    decide (inMonth year month t.date ∧ t.bankAccount ≠ none ∧ t.isInvoicePayment = false))

/-- The `relevant_invoices` queryset (`src/core/views.py`, lines 208-211):
unpaid invoices due in the month, or paid invoices paid in the month. -/
def relevantInvoice (year : Int) (month : Nat) (v : Invoice) : Prop :=
  (inMonth year month v.dueDate ∧ v.isPaid = false)
  ∨ ((∃ p, v.paymentDate = some p ∧ inMonth year month p) ∧ v.isPaid = true)

instance (y : Int) (m : Nat) (v : Invoice) : Decidable (relevantInvoice y m v) := by
  unfold relevantInvoice
  exact instDecidableOr

/-- The item dict built for a bank transaction (`src/core/views.py`,
lines 214-229). -/
def txnItem (t : Txn) : Item :=
  { date := t.date, amount := t.amount, ttype := t.ttype,
    isInvoice := false, isPredicted := false, refId := t.id }

/-- The item dict built for a relevant invoice (`src/core/views.py`,
lines 231-248): displayed on its payment date when paid, its due date
otherwise; its amount is the sum of its linked transactions. -/
def invoiceItem (txns : List Txn) (v : Invoice) : Item :=
  { date := if v.isPaid then v.paymentDate.getD v.dueDate else v.dueDate,
    amount := invoiceTotal txns v.id, ttype := TType.tOUT,
    isInvoice := true, isPredicted := !v.isPaid, refId := v.id }

/-- The `items` python list before sorting (`src/core/views.py`, lines
213-248): bank-transaction items followed by invoice items.  The summary
sums below iterate over this list, exactly as the source does. -/
def rawItems (s : St) (year : Int) (month : Nat) : List Item :=
  (bankTxnsOfMonth s year month).map txnItem
    ++ ((s.invoices.filter (fun v => decide (relevantInvoice year month v))).map
          (invoiceItem s.transactions))

/-- `context["items"]` (`src/core/views.py`, line 250): the raw items
sorted by date, descending. -/
def sortedItems (s : St) (year : Int) (month : Nat) : List Item :=
  (rawItems s year month).mergeSort (fun a b => decide (dateLe b.date a.date))

/-- The `past_transactions` queryset (`src/core/views.py`, lines 253-256):
bank-account transactions strictly before the month's first day (note:
invoice-payment transactions are *not* excluded here). -/
def pastTxns (s : St) (year : Int) (month : Nat) : List Txn :=
  s.transactions.filter (fun t =>
    decide (dateLt t.date ⟨year, month, 1⟩ ∧ t.bankAccount ≠ none))

/-- Sum of the amounts of transactions of type `ty` in a list (the
`aggregate(Sum("amount")) or 0` idiom). -/
def sumAmounts (txns : List Txn) (ty : TType) : ℚ :=
  ((txns.filter (fun t => decide (t.ttype = ty))).map (fun t => t.amount)).sum

/-- The monthly summary record: the context values computed by
`TransactionConsolidatedView.get_context_data` (`src/core/views.py`,
lines 196-304). -/
structure MonthlySummary where
  items : List Item
  previousBalance : ℚ
  realizedIncome : ℚ
  predictedIncome : ℚ
  realizedExpenses : ℚ
  predictedExpenses : ℚ
  realBalance : ℚ
  predictedBalance : ℚ
deriving DecidableEq, Repr

/-- `TransactionConsolidatedView.get_context_data` (`src/core/views.py`,
lines 196-304), field by field in source order: previous balance from
past bank transactions, realized sums over the non-predicted items,
predicted sums adding unpaid-invoice items, and the two balances. -/
def consolidatedSummary (s : St) (year : Int) (month : Nat) : MonthlySummary :=
  let items := rawItems s year month
  let pastIncome := sumAmounts (pastTxns s year month) TType.tIN
  let pastExpenses := sumAmounts (pastTxns s year month) TType.tOUT
  let previousBalance := pastIncome - pastExpenses
  let realizedIncome :=
    ((items.filter (fun it => decide (it.ttype = TType.tIN ∧ it.isPredicted = false))).map
      (fun it => it.amount)).sum
  let realizedExpenses :=
    ((items.filter (fun it => decide (it.ttype = TType.tOUT ∧ it.isPredicted = false))).map
      (fun it => it.amount)).sum
  let predictedExpensesFromInvoices :=
    ((items.filter (fun it => it.isPredicted)).map (fun it => it.amount)).sum
  let predictedIncome := realizedIncome
  let predictedExpenses := realizedExpenses + predictedExpensesFromInvoices
  { items := sortedItems s year month
    previousBalance := previousBalance
    realizedIncome := realizedIncome
    predictedIncome := predictedIncome
    realizedExpenses := realizedExpenses
    predictedExpenses := predictedExpenses
    realBalance := previousBalance + realizedIncome - realizedExpenses
    predictedBalance := previousBalance + predictedIncome - predictedExpenses }

/-- Store well-formedness: ids are below the fresh-id counters, invoice and
transaction ids are unique, and at most one invoice exists per
`(credit_card, end_date)` key (the idempotency key the spec names). -/
def WF (s : St) : Prop :=
  (∀ v ∈ s.invoices, v.id < s.nextInvoiceId)
  ∧ s.invoices.Pairwise (fun a b => a.id ≠ b.id)
  ∧ s.invoices.Pairwise (fun a b => a.cardId = b.cardId → a.endDate ≠ b.endDate)
  ∧ (∀ t ∈ s.transactions, t.id < s.nextTxnId)
  ∧ s.transactions.Pairwise (fun a b => a.id ≠ b.id)

instance (s : St) : Decidable (WF s) := by
  unfold WF; infer_instance

/-! ## Helper lemmas -/

theorem mkDate_eq_some {y : Int} {m d : Nat} {e : Date} :
    mkDate y m d = some e ↔ (Date.Valid ⟨y, m, d⟩ ∧ e = ⟨y, m, d⟩) := by
  unfold mkDate Date.Valid
  split <;> simp_all <;> exact eq_comm

theorem mkDate_eq_none_of_short {y : Int} {m d : Nat} (h : daysInMonth y m < d) :
    mkDate y m d = none := by
  unfold mkDate
  split
  · omega
  · rfl

theorem resolveEndDate_valid {c : Nat} {d ed : Date}
    (h : resolveEndDate c d = some ed) : ed.Valid := by
  unfold resolveEndDate at h
  split at h <;> rcases mkDate_eq_some.mp h with ⟨hv, he⟩ <;> exact he ▸ hv

theorem ymIter_succ (y : Int) (m i : Nat) :
    ymIter y m (i + 1) = nextYM (ymIter y m i).1 (ymIter y m i).2 := rfl

theorem addMonthsClip_year_month (d : Date) (h1 : 1 ≤ d.month) (h2 : d.month ≤ 12) :
    ∀ i, (addMonthsClip d i).year = (ymIter d.year d.month i).1
      ∧ (addMonthsClip d i).month = (ymIter d.year d.month i).2 := by
  intro i
  induction i with
  | zero =>
      have hlt : d.month - 1 + 0 < 12 := by omega
      unfold addMonthsClip ymIter
      simp only [Nat.div_eq_of_lt hlt, Nat.mod_eq_of_lt hlt]
      constructor
      · simp
      · simp; omega
  | succ i ih =>
      obtain ⟨ihy, ihm⟩ := ih
      rw [ymIter_succ, ← ihy, ← ihm]
      unfold addMonthsClip nextYM
      simp only
      by_cases hc : (d.month - 1 + i) % 12 = 11
      · have hq : (d.month - 1 + (i + 1)) / 12 = (d.month - 1 + i) / 12 + 1 := by omega
        have hr : (d.month - 1 + (i + 1)) % 12 = 0 := by omega
        rw [hq, hr]
        rw [if_pos (by omega)]
        constructor
        · push_cast; ring
        · rfl
      · have hq : (d.month - 1 + (i + 1)) / 12 = (d.month - 1 + i) / 12 := by omega
        have hr : (d.month - 1 + (i + 1)) % 12 = (d.month - 1 + i) % 12 + 1 := by omega
        rw [hq, hr]
        rw [if_neg (by omega)]
        constructor
        · rfl
        · rfl

theorem addMonthsClip_day (d : Date) (i : Nat) :
    (addMonthsClip d i).day =
      if d.day ≤ daysInMonth (addMonthsClip d i).year (addMonthsClip d i).month
      then d.day else daysInMonth (addMonthsClip d i).year (addMonthsClip d i).month := by
  unfold addMonthsClip
  simp only [min_def]

/-- Banker's rounding to an integer moves a rational by at most 1/2. -/
theorem roundHalfEvenInt_err (x : ℚ) : |(roundHalfEvenInt x : ℚ) - x| ≤ 1/2 := by
  have h1 : (⌊x⌋ : ℚ) ≤ x := Int.floor_le x
  have h2 : x < ⌊x⌋ + 1 := Int.lt_floor_add_one x
  rw [show roundHalfEvenInt x
      = (if x - ⌊x⌋ < 1/2 then ⌊x⌋
         else if 1/2 < x - ⌊x⌋ then ⌊x⌋ + 1
         else if ⌊x⌋ % 2 = 0 then ⌊x⌋ else ⌊x⌋ + 1) from rfl]
  split
  · rw [abs_le]; constructor <;> push_cast <;> linarith
  · split
    · rw [abs_le]; constructor <;> push_cast <;> linarith
    · split <;> (rw [abs_le]; constructor <;> push_cast <;> linarith)

/-- `round(x, 2)` moves a rational by at most 1/200. -/
theorem roundHalfEven2_err (x : ℚ) : |roundHalfEven2 x - x| ≤ 1/200 := by
  have h := roundHalfEvenInt_err (x * 100)
  unfold roundHalfEven2
  have : (roundHalfEvenInt (x * 100) : ℚ) / 100 - x
      = ((roundHalfEvenInt (x * 100) : ℚ) - x * 100) / 100 := by ring
  rw [this, abs_div]
  rw [abs_of_pos (by norm_num : (0:ℚ) < 100)]
  linarith [h]

theorem sum_map_const_range (n : Nat) (r : ℚ) :
    (((List.range n).map (fun _ => r)).sum) = n * r := by
  induction n with
  | zero => simp
  | succ n ih =>
      rw [List.range_succ, List.map_append, List.sum_append]
      simp [ih]
      push_cast
      ring

theorem ymIter_one (y : Int) (m : Nat) : ymIter y m 1 = nextYM y m := rfl

/-! ## Claims -/

/-- C7: for every target month and every transaction/invoice history, the
realized closing balance equals previous balance plus realized income
minus realized expense, and the predicted closing balance equals previous
balance plus predicted income minus predicted expense. -/
theorem c7_balance_equation (s : St) (year : Int) (month : Nat) :
    (consolidatedSummary s year month).realBalance
      = (consolidatedSummary s year month).previousBalance
        + (consolidatedSummary s year month).realizedIncome
        - (consolidatedSummary s year month).realizedExpenses
    ∧ (consolidatedSummary s year month).predictedBalance
      = (consolidatedSummary s year month).previousBalance
        + (consolidatedSummary s year month).predictedIncome
        - (consolidatedSummary s year month).predictedExpenses :=
  ⟨rfl, rfl⟩

/-- C6: every installment's amount is `round(total/count, 2)`, and the sum
of the `count` installment amounts differs from the total by at most
`count × 0.01` (no reconciliation of the rounding drift). -/
theorem c6_installment_amount_rounding (totalAmount : ℚ) (count : Nat)
    (startDate : Date) (description : String) (ttype : TType)
    (category bankAccount creditCard : Option Nat) (h2 : 2 ≤ count) :
    (∀ dr ∈ expandInstallments totalAmount count startDate description ttype
        category bankAccount creditCard,
        dr.amount = roundHalfEven2 (totalAmount / count))
    ∧ |(((expandInstallments totalAmount count startDate description ttype
          category bankAccount creditCard).map (fun dr => dr.amount)).sum)
        - totalAmount| ≤ count * (1/100) := by
  constructor
  · intro dr hdr
    unfold expandInstallments at hdr
    simp only [List.mem_map, List.mem_range] at hdr
    obtain ⟨i, _, he⟩ := hdr
    rw [← he]
  · have hmap : ((expandInstallments totalAmount count startDate description ttype
        category bankAccount creditCard).map (fun dr => dr.amount))
        = (List.range count).map (fun _ => roundHalfEven2 (totalAmount / count)) := by
      unfold expandInstallments
      rw [List.map_map]
      rfl
    rw [hmap, sum_map_const_range]
    have hc0 : (0:ℚ) < (count : ℚ) := by
      have : (0:Nat) < count := by omega
      exact_mod_cast this
    have herr := roundHalfEven2_err (totalAmount / count)
    have hsplit : (count : ℚ) * roundHalfEven2 (totalAmount / count) - totalAmount
        = (count : ℚ) * (roundHalfEven2 (totalAmount / count) - totalAmount / count) := by
      field_simp
      ring
    rw [hsplit, abs_mul, abs_of_pos hc0]
    have h1 : (count : ℚ) * |roundHalfEven2 (totalAmount / count) - totalAmount / count|
        ≤ (count : ℚ) * (1/200) := by
      exact mul_le_mul_of_nonneg_left herr (le_of_lt hc0)
    have h2' : (count : ℚ) * (1/200) ≤ (count : ℚ) * (1/100) := by
      apply mul_le_mul_of_nonneg_left _ (le_of_lt hc0)
      norm_num
    linarith

/-- C6 witness: the spec's scenario (total 100.00, count 3): each
installment is 33.33 and the sum 99.99 is within 3 × 0.01 of 100. -/
theorem c6_installment_amount_rounding_witness :
    2 ≤ 3
    ∧ ((∀ dr ∈ expandInstallments 100 3 ⟨2024, 1, 15⟩ "Compra" TType.tOUT
          none none none,
          dr.amount = roundHalfEven2 (100 / 3))
       ∧ |(((expandInstallments 100 3 ⟨2024, 1, 15⟩ "Compra" TType.tOUT
            none none none).map (fun dr => dr.amount)).sum) - 100|
          ≤ 3 * (1/100)) :=
  ⟨by norm_num,
   c6_installment_amount_rounding 100 3 ⟨2024, 1, 15⟩ "Compra" TType.tOUT
     none none none (by norm_num)⟩

/-- C5: installment expansion yields exactly `count` drafts; the `i`-th is
dated `start_date + i` calendar months (day preserved when valid,
otherwise clipped to the target month's last day), its description is the
original suffixed with `(i+1/count)`, and all share type, category and
account. -/
theorem c5_installment_expansion (totalAmount : ℚ) (count : Nat)
    (startDate : Date) (description : String) (ttype : TType)
    (category bankAccount creditCard : Option Nat)
    (h2 : 2 ≤ count) (hv : startDate.Valid) :
    (expandInstallments totalAmount count startDate description ttype
        category bankAccount creditCard).length = count
    ∧ ∀ i (hi : i < (expandInstallments totalAmount count startDate description
          ttype category bankAccount creditCard).length),
        let dr := (expandInstallments totalAmount count startDate description
          ttype category bankAccount creditCard).get ⟨i, hi⟩
        dr.date.year = (ymIter startDate.year startDate.month i).1
        ∧ dr.date.month = (ymIter startDate.year startDate.month i).2
        ∧ dr.date.day = (if startDate.day ≤ daysInMonth dr.date.year dr.date.month
            then startDate.day else daysInMonth dr.date.year dr.date.month)
        ∧ dr.description = description ++ " (" ++ toString (i + 1) ++ "/"
            ++ toString count ++ ")"
        ∧ dr.ttype = ttype ∧ dr.category = category
        ∧ dr.bankAccount = bankAccount ∧ dr.creditCard = creditCard := by
  constructor
  · unfold expandInstallments
    simp
  · intro i hi
    have hlen : (expandInstallments totalAmount count startDate description
        ttype category bankAccount creditCard).length = count := by
      unfold expandInstallments; simp
    have hdr : (expandInstallments totalAmount count startDate description
        ttype category bankAccount creditCard).get ⟨i, hi⟩
        = { description := description ++ " (" ++ toString (i + 1) ++ "/"
              ++ toString count ++ ")"
            amount := roundHalfEven2 (totalAmount / count)
            ttype := ttype
            date := addMonthsClip startDate i
            category := category
            bankAccount := bankAccount
            creditCard := creditCard } := by
      unfold expandInstallments
      rw [List.get_eq_getElem, List.getElem_map, List.getElem_range]
    simp only [hdr]
    have hym := addMonthsClip_year_month startDate hv.1 hv.2.1 i
    exact ⟨hym.1, hym.2, addMonthsClip_day startDate i,
      trivial, trivial, trivial, trivial, trivial⟩

/-- C5 witness: the spec's scenario, an installment purchase of 3 parts
starting 2024-01-15. -/
theorem c5_installment_expansion_witness :
    2 ≤ 3 ∧ (⟨2024, 1, 15⟩ : Date).Valid
    ∧ ((expandInstallments 100 3 ⟨2024, 1, 15⟩ "Compra" TType.tOUT
          none none (some 7)).length = 3
       ∧ ∀ i (hi : i < (expandInstallments 100 3 ⟨2024, 1, 15⟩ "Compra"
            TType.tOUT none none (some 7)).length),
          let dr := (expandInstallments 100 3 ⟨2024, 1, 15⟩ "Compra" TType.tOUT
            none none (some 7)).get ⟨i, hi⟩
          dr.date.year = (ymIter 2024 1 i).1
          ∧ dr.date.month = (ymIter 2024 1 i).2
          ∧ dr.date.day = (if 15 ≤ daysInMonth dr.date.year dr.date.month
              then 15 else daysInMonth dr.date.year dr.date.month)
          ∧ dr.description = "Compra" ++ " (" ++ toString (i + 1) ++ "/"
              ++ toString 3 ++ ")"
          ∧ dr.ttype = TType.tOUT ∧ dr.category = none
          ∧ dr.bankAccount = none ∧ dr.creditCard = some 7) :=
  ⟨by norm_num, by decide,
   c5_installment_expansion 100 3 ⟨2024, 1, 15⟩ "Compra" TType.tOUT
     none none (some 7) (by norm_num) (by decide)⟩

/-- C2: for a credit-card transaction, the resolved invoice end date is
`(year, month, closing_day)` of the transaction's month when the day is
at most the closing day, and the closing day of the following calendar
month otherwise; the due date shares the end date's month when
`due_day > closing_day` and falls one calendar month later otherwise. -/
theorem c2_end_and_due_date (closingDay dueDay : Nat) (d ed dd : Date)
    (hv : d.Valid)
    (he : resolveEndDate closingDay d = some ed)
    (hd : resolveDueDate closingDay dueDay ed = some dd) :
    (d.day ≤ closingDay → ed = ⟨d.year, d.month, closingDay⟩)
    ∧ (closingDay < d.day →
        (ed.year, ed.month) = nextYM d.year d.month ∧ ed.day = closingDay)
    ∧ (closingDay < dueDay → dd = ⟨ed.year, ed.month, dueDay⟩)
    ∧ (dueDay ≤ closingDay →
        (dd.year, dd.month) = nextYM ed.year ed.month ∧ dd.day = dueDay) := by
  have hved : ed.Valid := resolveEndDate_valid he
  refine ⟨?_, ?_, ?_, ?_⟩
  · intro hle
    unfold resolveEndDate at he
    rw [if_pos hle] at he
    exact (mkDate_eq_some.mp he).2
  · intro hgt
    unfold resolveEndDate at he
    rw [if_neg (by omega)] at he
    have he' := (mkDate_eq_some.mp he).2
    have hym := addMonthsClip_year_month d hv.1 hv.2.1 1
    rw [ymIter_one] at hym
    subst he'
    exact ⟨Prod.ext hym.1 hym.2, rfl⟩
  · intro hdg
    unfold resolveDueDate at hd
    rw [if_pos hdg] at hd
    exact (mkDate_eq_some.mp hd).2
  · intro hdle
    unfold resolveDueDate at hd
    rw [if_neg (by omega)] at hd
    have hd' := (mkDate_eq_some.mp hd).2
    have hym := addMonthsClip_year_month ed hved.1 hved.2.1 1
    rw [ymIter_one] at hym
    subst hd'
    exact ⟨Prod.ext hym.1 hym.2, rfl⟩

/-- C2 witness: the spec's scenario — card with closing_day 25 and due_day
10, transaction dated 2024-01-26 resolves to end date 2024-02-25 and due
date 2024-03-10. -/
theorem c2_end_and_due_date_witness :
    resolveEndDate 25 ⟨2024, 1, 26⟩ = some ⟨2024, 2, 25⟩
    ∧ resolveDueDate 25 10 ⟨2024, 2, 25⟩ = some ⟨2024, 3, 10⟩
    ∧ (((⟨2024, 2, 25⟩ : Date).year, (⟨2024, 2, 25⟩ : Date).month)
          = nextYM 2024 1 ∧ (⟨2024, 2, 25⟩ : Date).day = 25)
    ∧ (((⟨2024, 3, 10⟩ : Date).year, (⟨2024, 3, 10⟩ : Date).month)
          = nextYM (⟨2024, 2, 25⟩ : Date).year (⟨2024, 2, 25⟩ : Date).month
        ∧ (⟨2024, 3, 10⟩ : Date).day = 10) :=
  have h := c2_end_and_due_date 25 10 ⟨2024, 1, 26⟩ ⟨2024, 2, 25⟩ ⟨2024, 3, 10⟩
    (by decide) (by decide) (by decide)
  ⟨by decide, by decide, h.2.1 (by decide), h.2.2.2 (by decide)⟩

/-- C9 (amended): for closing days 29–31, when the computed invoice month
is too short to contain the closing day, invoice resolution *fails* (the
`date(...)` constructor raises); the end date is not silently clipped. -/
theorem c9_short_month_resolution_fails (closingDay : Nat) (d : Date)
    (hv : d.Valid) (h29 : 29 ≤ closingDay) (h31 : closingDay ≤ 31)
    (hshort :
      daysInMonth (if d.day ≤ closingDay then d.year else (nextYM d.year d.month).1)
        (if d.day ≤ closingDay then d.month else (nextYM d.year d.month).2)
        < closingDay) :
    resolveEndDate closingDay d = none := by
  unfold resolveEndDate
  by_cases hc : d.day ≤ closingDay
  · rw [if_pos hc]
    rw [if_pos hc, if_pos hc] at hshort
    exact mkDate_eq_none_of_short hshort
  · rw [if_neg hc]
    rw [if_neg hc, if_neg hc] at hshort
    have hym := addMonthsClip_year_month d hv.1 hv.2.1 1
    rw [ymIter_one] at hym
    apply mkDate_eq_none_of_short
    rw [hym.1, hym.2]
    exact hshort

/-- C9 witness: closing day 31 with a transaction dated 2024-04-10 (April
has 30 days): resolution returns `none`. -/
theorem c9_short_month_resolution_fails_witness :
    (⟨2024, 4, 10⟩ : Date).Valid ∧ 29 ≤ 31 ∧ 31 ≤ 31
    ∧ daysInMonth (if (10:Nat) ≤ 31 then (2024:Int) else (nextYM 2024 4).1)
        (if (10:Nat) ≤ 31 then (4:Nat) else (nextYM 2024 4).2) < 31
    ∧ resolveEndDate 31 ⟨2024, 4, 10⟩ = none :=
  ⟨by decide, by decide, by decide, by decide,
   c9_short_month_resolution_fails 31 ⟨2024, 4, 10⟩ (by decide) (by decide)
     (by decide) (by decide)⟩

/-- C9 counterexample: the claim says resolution "does not fail" and clips
the end date to the month's last valid day; on closing day 31 and a
transaction dated 2024-04-10, `Transaction.save` fails (the `date`
constructor raises) and nothing resolves to the clipped 2024-04-30. -/
theorem c9_counterexample :
    saveCreditCardTxn ⟨7, 31, 10⟩ ⟨"a", 50, TType.tOUT, ⟨2024, 4, 10⟩, none⟩
        St.empty = none
    ∧ resolveEndDate 31 ⟨2024, 4, 10⟩ ≠ some ⟨2024, 4, 30⟩ := by
  constructor
  · rfl
  · decide

/-! ## Store lemmas -/

theorem gOC_found {s : St} {cardId : Nat} {e dd : Date} {v : Invoice}
    (h : s.invoices.find? (fun w => decide (w.cardId = cardId ∧ w.endDate = e)) = some v) :
    getOrCreateInvoice s cardId e dd = (v.id, s) := by
  unfold getOrCreateInvoice
  rw [h]

theorem gOC_create {s : St} {cardId : Nat} {e dd : Date}
    (h : s.invoices.find? (fun w => decide (w.cardId = cardId ∧ w.endDate = e)) = none) :
    getOrCreateInvoice s cardId e dd =
      (s.nextInvoiceId,
       { s with
         invoices := s.invoices ++ [⟨s.nextInvoiceId, cardId, e, dd, false, none⟩],
         nextInvoiceId := s.nextInvoiceId + 1 }) := by
  unfold getOrCreateInvoice
  rw [h]

theorem saveCC_spec {card : CreditCard} {t : TxnInput} {s s' : St} {i : Nat}
    (h : saveCreditCardTxn card t s = some (s', i)) :
    ∃ ed dd, resolveEndDate card.closingDay t.date = some ed
      ∧ resolveDueDate card.closingDay card.dueDay ed = some dd
      ∧ s'.transactions = s.transactions ++
          [⟨s.nextTxnId, t.description, t.amount, t.ttype, t.date, t.category,
            none, some card.id, some i, false⟩]
      ∧ s'.nextTxnId = s.nextTxnId + 1
      ∧ s'.categories = s.categories
      ∧ s'.nextCategoryId = s.nextCategoryId
      ∧ ((∃ v, s.invoices.find?
              (fun w => decide (w.cardId = card.id ∧ w.endDate = ed)) = some v
            ∧ i = v.id ∧ s'.invoices = s.invoices
            ∧ s'.nextInvoiceId = s.nextInvoiceId)
         ∨ (s.invoices.find?
              (fun w => decide (w.cardId = card.id ∧ w.endDate = ed)) = none
            ∧ i = s.nextInvoiceId
            ∧ s'.invoices = s.invoices ++ [⟨s.nextInvoiceId, card.id, ed, dd, false, none⟩]
            ∧ s'.nextInvoiceId = s.nextInvoiceId + 1)) := by
  unfold saveCreditCardTxn at h
  cases hre : resolveEndDate card.closingDay t.date with
  | none =>
      rw [hre] at h
      simp at h
  | some ed =>
      rw [hre] at h
      simp only [Option.bind_eq_bind, Option.some_bind] at h
      cases hrd : resolveDueDate card.closingDay card.dueDay ed with
      | none =>
          rw [hrd] at h
          simp at h
      | some dd =>
          rw [hrd] at h
          simp only [Option.bind_eq_bind, Option.some_bind] at h
          refine ⟨ed, dd, rfl, hrd, ?_⟩
          cases hf : s.invoices.find?
              (fun w => decide (w.cardId = card.id ∧ w.endDate = ed)) with
          | some v =>
              rw [gOC_found hf] at h
              simp only [Option.some.injEq, Prod.mk.injEq] at h
              obtain ⟨hs', hi⟩ := h
              subst hi
              rw [← hs']
              exact ⟨rfl, rfl, rfl, rfl, Or.inl ⟨v, rfl, rfl, rfl, rfl⟩⟩
          | none =>
              rw [gOC_create hf] at h
              simp only [Option.some.injEq, Prod.mk.injEq] at h
              obtain ⟨hs', hi⟩ := h
              subst hi
              rw [← hs']
              exact ⟨rfl, rfl, rfl, rfl, Or.inr ⟨rfl, rfl, rfl, rfl⟩⟩

theorem invoice_key_unique {l : List Invoice}
    (hp : l.Pairwise (fun a b => a.cardId = b.cardId → a.endDate ≠ b.endDate))
    {v w : Invoice} (hv : v ∈ l) (hw : w ∈ l)
    (hc : v.cardId = w.cardId) (he : v.endDate = w.endDate) : v = w := by
  by_contra hne
  have hsym : Symmetric (fun a b : Invoice => a.cardId = b.cardId → a.endDate ≠ b.endDate) := by
    intro a b hab hba hbe
    exact hab hba.symm hbe.symm
  exact hp.forall hsym hv hw hne hc he

theorem invoice_id_unique {l : List Invoice}
    (hp : l.Pairwise (fun a b : Invoice => a.id ≠ b.id))
    {v w : Invoice} (hv : v ∈ l) (hw : w ∈ l) (hid : v.id = w.id) : v = w := by
  by_contra hne
  have hsym : Symmetric (fun a b : Invoice => a.id ≠ b.id) := fun _ _ hab => hab.symm
  exact hp.forall hsym hv hw hne hid

theorem filter_key_singleton {l : List Invoice} {cardId : Nat} {e : Date} {v : Invoice}
    (hp : l.Pairwise (fun a b => a.cardId = b.cardId → a.endDate ≠ b.endDate))
    (hv : v ∈ l) (hc : v.cardId = cardId) (he : v.endDate = e) :
    l.filter (fun w => decide (w.cardId = cardId ∧ w.endDate = e)) = [v] := by
  induction l with
  | nil => cases hv
  | cons a tl ih =>
      rw [List.pairwise_cons] at hp
      rcases List.mem_cons.mp hv with hva | hvt
      · subst hva
        rw [List.filter_cons_of_pos (by simp [hc, he])]
        have ht : tl.filter (fun w => decide (w.cardId = cardId ∧ w.endDate = e)) = [] := by
          rw [List.filter_eq_nil_iff]
          intro w hw
          simp only [decide_eq_true_eq, not_and]
          intro hwc hwe
          exact absurd (he.trans hwe.symm) (hp.1 w hw (hc.trans hwc.symm))
        rw [ht]
      · have hna : ¬(a.cardId = cardId ∧ a.endDate = e) := by
          rintro ⟨hac, hae⟩
          exact (hp.1 v hvt (hac.trans hc.symm)) (hae.trans he.symm)
        rw [List.filter_cons_of_neg (by simpa using hna)]
        exact ih hp.2 hvt

theorem WF_saveCC {card : CreditCard} {t : TxnInput} {s s' : St} {i : Nat}
    (hWF : WF s) (h : saveCreditCardTxn card t s = some (s', i)) : WF s' := by
  obtain ⟨ed, dd, _, _, htr, hnt, _, _, hcases⟩ := saveCC_spec h
  obtain ⟨hIdLt, hIdPw, hKeyPw, hTIdLt, hTIdPw⟩ := hWF
  have hTxn' : (∀ u ∈ s'.transactions, u.id < s'.nextTxnId)
      ∧ s'.transactions.Pairwise (fun a b => a.id ≠ b.id) := by
    rw [htr, hnt]
    constructor
    · intro u hu
      rcases List.mem_append.mp hu with hu | hu
      · exact Nat.lt_succ_of_lt (hTIdLt u hu)
      · rcases List.mem_singleton.mp hu with rfl
        exact Nat.lt_succ_self _
    · rw [List.pairwise_append]
      refine ⟨hTIdPw, List.pairwise_singleton _ _, ?_⟩
      intro a ha b hb
      rcases List.mem_singleton.mp hb with rfl
      exact Nat.ne_of_lt (hTIdLt a ha)
  rcases hcases with ⟨v, _, _, hinv, hni⟩ | ⟨hfnone, _, hinv, hni⟩
  · exact ⟨by rw [hinv, hni]; exact hIdLt, by rw [hinv]; exact hIdPw,
      by rw [hinv]; exact hKeyPw, hTxn'.1, hTxn'.2⟩
  · refine ⟨?_, ?_, ?_, hTxn'.1, hTxn'.2⟩
    · rw [hinv, hni]
      intro v hv
      rcases List.mem_append.mp hv with hv | hv
      · exact Nat.lt_succ_of_lt (hIdLt v hv)
      · rcases List.mem_singleton.mp hv with rfl
        exact Nat.lt_succ_self _
    · rw [hinv, List.pairwise_append]
      refine ⟨hIdPw, List.pairwise_singleton _ _, ?_⟩
      intro a ha b hb
      rcases List.mem_singleton.mp hb with rfl
      exact Nat.ne_of_lt (hIdLt a ha)
    · rw [hinv, List.pairwise_append]
      refine ⟨hKeyPw, List.pairwise_singleton _ _, ?_⟩
      intro a ha b hb
      rcases List.mem_singleton.mp hb with rfl
      intro hac
      have := List.find?_eq_none.mp hfnone a ha
      simp only [decide_eq_true_eq, not_and] at this
      intro hae
      exact this hac hae

theorem saveCC_linked {card : CreditCard} {t : TxnInput} {s s' : St} {i : Nat}
    (h : saveCreditCardTxn card t s = some (s', i)) :
    ∃ v ∈ s'.invoices, v.id = i ∧ v.cardId = card.id
      ∧ resolveEndDate card.closingDay t.date = some v.endDate := by
  obtain ⟨ed, dd, hre, _, _, _, _, _, hcases⟩ := saveCC_spec h
  rcases hcases with ⟨v, hfv, hiv, hinv, _⟩ | ⟨_, hiv, hinv, _⟩
  · refine ⟨v, by rw [hinv]; exact List.mem_of_find?_eq_some hfv, hiv.symm, ?_, ?_⟩
    · have := List.find?_some hfv
      simp only [decide_eq_true_eq] at this
      exact this.1
    · have := List.find?_some hfv
      simp only [decide_eq_true_eq] at this
      rw [hre, this.2]
  · refine ⟨⟨s.nextInvoiceId, card.id, ed, dd, false, none⟩, ?_, by rw [hiv], rfl, hre⟩
    rw [hinv]
    exact List.mem_append_right _ (List.mem_singleton.mpr rfl)

theorem saveCC_invoices_mono {card : CreditCard} {t : TxnInput} {s s' : St} {i : Nat}
    (h : saveCreditCardTxn card t s = some (s', i)) :
    ∀ v ∈ s.invoices, v ∈ s'.invoices := by
  obtain ⟨ed, dd, _, _, _, _, _, _, hcases⟩ := saveCC_spec h
  rcases hcases with ⟨v, _, _, hinv, _⟩ | ⟨_, _, hinv, _⟩
  · rw [hinv]; exact fun v hv => hv
  · rw [hinv]; exact fun v hv => List.mem_append_left _ hv

/-- C1: invoice resolution is idempotent — saving two credit-card
transactions whose dates yield the same computed end date links both to
one and the same invoice and leaves exactly one invoice for that
`(credit_card, end_date)` pair; saves whose computed end dates differ
(in particular, dates in adjacent cycles) link to distinct invoices. -/
theorem c1_invoice_resolution_idempotent
    (card : CreditCard) (s : St) (t1 t2 : TxnInput) (s1 s2 : St) (i1 i2 : Nat)
    (hWF : WF s)
    (h1 : saveCreditCardTxn card t1 s = some (s1, i1))
    (h2 : saveCreditCardTxn card t2 s1 = some (s2, i2)) :
    (∃ a b, s2.transactions = s.transactions ++ [a, b]
        ∧ a.invoice = some i1 ∧ b.invoice = some i2)
    ∧ (resolveEndDate card.closingDay t1.date
          = resolveEndDate card.closingDay t2.date →
        i1 = i2
        ∧ ∀ e, resolveEndDate card.closingDay t1.date = some e →
            (s2.invoices.filter
              (fun w => decide (w.cardId = card.id ∧ w.endDate = e))).length = 1)
    ∧ (resolveEndDate card.closingDay t1.date
          ≠ resolveEndDate card.closingDay t2.date →
        i1 ≠ i2) := by
  have hWF1 := WF_saveCC hWF h1
  have hWF2 := WF_saveCC hWF1 h2
  obtain ⟨e1, d1, hre1, hrd1, htr1, hnt1, _, _, hc1⟩ := saveCC_spec h1
  obtain ⟨e2, d2, hre2, hrd2, htr2, hnt2, _, _, hc2⟩ := saveCC_spec h2
  refine ⟨?_, ?_, ?_⟩
  · refine ⟨⟨s.nextTxnId, t1.description, t1.amount, t1.ttype, t1.date,
        t1.category, none, some card.id, some i1, false⟩,
      ⟨s1.nextTxnId, t2.description, t2.amount, t2.ttype, t2.date,
        t2.category, none, some card.id, some i2, false⟩, ?_, rfl, rfl⟩
    rw [htr2, htr1, List.append_assoc]
    rfl
  · intro hsame
    have he12 : e2 = e1 := by
      rw [hre1, hre2] at hsame
      exact (Option.some.inj hsame).symm
    subst he12
    obtain ⟨v1, hv1mem, hv1id, hv1card, hv1end⟩ := saveCC_linked h1
    have hv1e : v1.endDate = e2 := by
      rw [hre1] at hv1end
      exact (Option.some.inj hv1end).symm
    rcases hc2 with ⟨w, hfw, hi2, hinv2, _⟩ | ⟨hfnone, _, _, _⟩
    · have hwmem := List.mem_of_find?_eq_some hfw
      have hwkey := List.find?_some hfw
      simp only [decide_eq_true_eq] at hwkey
      have hvw : v1 = w := invoice_key_unique hWF1.2.2.1 hv1mem hwmem
        (hv1card.trans hwkey.1.symm) (hv1e.trans hwkey.2.symm)
      constructor
      · rw [← hv1id, hi2, hvw]
      · intro e he
        have hee : e = e2 := by
          rw [hre1] at he
          exact (Option.some.inj he).symm
        subst hee
        rw [hinv2, filter_key_singleton hWF1.2.2.1 hv1mem hv1card hv1e]
        rfl
    · exfalso
      have := List.find?_eq_none.mp hfnone v1 hv1mem
      simp only [decide_eq_true_eq, not_and] at this
      exact this hv1card hv1e
  · intro hdiff hii
    obtain ⟨v1, hv1mem, hv1id, hv1card, hv1end⟩ := saveCC_linked h1
    obtain ⟨v2, hv2mem, hv2id, hv2card, hv2end⟩ := saveCC_linked h2
    have hv1mem2 : v1 ∈ s2.invoices := saveCC_invoices_mono h2 v1 hv1mem
    have hvv : v1 = v2 := invoice_id_unique hWF2.2.1 hv1mem2 hv2mem
      (by rw [hv1id, hv2id, hii])
    apply hdiff
    rw [hv1end, hv2end, hvv]

/-- Concrete card used by the closed witnesses: id 7, closing day 25, due
day 10 (the spec's scenario card). -/
def wCard : CreditCard := ⟨7, 25, 10⟩

/-- Concrete credit-card purchase dated 2024-01-20 (same cycle as
`wInp2`). -/
def wInp1 : TxnInput := ⟨"a", 50, TType.tOUT, ⟨2024, 1, 20⟩, none⟩

/-- Concrete credit-card purchase dated 2024-01-22. -/
def wInp2 : TxnInput := ⟨"b", 30, TType.tOUT, ⟨2024, 1, 22⟩, none⟩

/-- The store after saving `wInp1` into the empty store. -/
def wSt1 : St :=
  ⟨[], [⟨0, 7, ⟨2024, 1, 25⟩, ⟨2024, 2, 10⟩, false, none⟩],
   [⟨0, "a", 50, TType.tOUT, ⟨2024, 1, 20⟩, none, none, some 7, some 0, false⟩],
   0, 1, 1⟩

/-- The store after then saving `wInp2`. -/
def wSt2 : St :=
  ⟨[], [⟨0, 7, ⟨2024, 1, 25⟩, ⟨2024, 2, 10⟩, false, none⟩],
   [⟨0, "a", 50, TType.tOUT, ⟨2024, 1, 20⟩, none, none, some 7, some 0, false⟩,
    ⟨1, "b", 30, TType.tOUT, ⟨2024, 1, 22⟩, none, none, some 7, some 0, false⟩],
   0, 1, 2⟩

/-- C1 witness: two same-cycle purchases on the scenario card, saved into
the empty store, share invoice 0 and leave a single invoice for the
`(card, 2024-01-25)` key. -/
theorem c1_invoice_resolution_idempotent_witness :
    WF St.empty
    ∧ saveCreditCardTxn wCard wInp1 St.empty = some (wSt1, 0)
    ∧ saveCreditCardTxn wCard wInp2 wSt1 = some (wSt2, 0)
    ∧ ((∃ a b, wSt2.transactions = St.empty.transactions ++ [a, b]
          ∧ a.invoice = some 0 ∧ b.invoice = some 0)
       ∧ (resolveEndDate wCard.closingDay wInp1.date
              = resolveEndDate wCard.closingDay wInp2.date →
            0 = 0
            ∧ ∀ e, resolveEndDate wCard.closingDay wInp1.date = some e →
                (wSt2.invoices.filter
                  (fun w => decide (w.cardId = wCard.id ∧ w.endDate = e))).length = 1)
       ∧ (resolveEndDate wCard.closingDay wInp1.date
              ≠ resolveEndDate wCard.closingDay wInp2.date →
            0 ≠ 0)) :=
  ⟨by decide, by decide, by decide,
   c1_invoice_resolution_idempotent wCard St.empty wInp1 wInp2 wSt1 wSt2 0 0
     (by decide) (by decide) (by decide)⟩

theorem editCC_spec {card : CreditCard} {txnId : Nat} {t : TxnInput} {s s' : St} {i : Nat}
    (h : editCreditCardTxn card txnId t s = some (s', i)) :
    ∃ ed dd, resolveEndDate card.closingDay t.date = some ed
      ∧ resolveDueDate card.closingDay card.dueDay ed = some dd
      ∧ s'.transactions = s.transactions.map (fun u =>
          if u.id = txnId then
            ⟨u.id, t.description, t.amount, t.ttype, t.date, t.category,
             u.bankAccount, u.creditCard, some i, u.isInvoicePayment⟩
          else u)
      ∧ ((∃ v, s.invoices.find?
              (fun w => decide (w.cardId = card.id ∧ w.endDate = ed)) = some v
            ∧ i = v.id ∧ s'.invoices = s.invoices
            ∧ s'.nextInvoiceId = s.nextInvoiceId)
         ∨ (s.invoices.find?
              (fun w => decide (w.cardId = card.id ∧ w.endDate = ed)) = none
            ∧ i = s.nextInvoiceId
            ∧ s'.invoices = s.invoices ++ [⟨s.nextInvoiceId, card.id, ed, dd, false, none⟩]
            ∧ s'.nextInvoiceId = s.nextInvoiceId + 1)) := by
  unfold editCreditCardTxn at h
  cases hre : resolveEndDate card.closingDay t.date with
  | none =>
      rw [hre] at h
      simp at h
  | some ed =>
      rw [hre] at h
      simp only [Option.bind_eq_bind, Option.some_bind] at h
      cases hrd : resolveDueDate card.closingDay card.dueDay ed with
      | none =>
          rw [hrd] at h
          simp at h
      | some dd =>
          rw [hrd] at h
          simp only [Option.bind_eq_bind, Option.some_bind] at h
          refine ⟨ed, dd, rfl, hrd, ?_⟩
          cases hf : s.invoices.find?
              (fun w => decide (w.cardId = card.id ∧ w.endDate = ed)) with
          | some v =>
              rw [gOC_found hf] at h
              simp only [Option.some.injEq, Prod.mk.injEq] at h
              obtain ⟨hs', hi⟩ := h
              subst hi
              rw [← hs']
              exact ⟨rfl, Or.inl ⟨v, rfl, rfl, rfl, rfl⟩⟩
          | none =>
              rw [gOC_create hf] at h
              simp only [Option.some.injEq, Prod.mk.injEq] at h
              obtain ⟨hs', hi⟩ := h
              subst hi
              rw [← hs']
              exact ⟨rfl, Or.inr ⟨rfl, rfl, rfl, rfl⟩⟩

/-- C10 (amended): re-saving an edited credit-card transaction *does*
re-run the billing-cycle resolution: if the edited date still resolves to
the transaction's current invoice end date the assignment is unchanged,
but an edit whose date resolves to a different end date reassigns the
transaction to that cycle's invoice (a different one). -/
theorem c10_edit_reruns_resolution
    (card : CreditCard) (s : St) (hWF : WF s)
    (tOld : Txn) (vOld : Invoice) (hvmem : vOld ∈ s.invoices)
    (hvcard : vOld.cardId = card.id)
    (hvend : resolveEndDate card.closingDay tOld.date = some vOld.endDate)
    (tNew : TxnInput) (s' : St) (i : Nat)
    (h : editCreditCardTxn card tOld.id tNew s = some (s', i)) :
    (tOld ∈ s.transactions → ∃ u ∈ s'.transactions, u.id = tOld.id
        ∧ u.invoice = some i ∧ u.date = tNew.date)
    ∧ (resolveEndDate card.closingDay tNew.date
          = resolveEndDate card.closingDay tOld.date → i = vOld.id)
    ∧ (resolveEndDate card.closingDay tNew.date
          ≠ resolveEndDate card.closingDay tOld.date → i ≠ vOld.id) := by
  obtain ⟨ed, dd, hre, hrd, htr, hcases⟩ := editCC_spec h
  refine ⟨?_, ?_, ?_⟩
  · intro hmem
    refine ⟨⟨tOld.id, tNew.description, tNew.amount, tNew.ttype, tNew.date,
        tNew.category, tOld.bankAccount, tOld.creditCard, some i,
        tOld.isInvoicePayment⟩, ?_, rfl, rfl, rfl⟩
    rw [htr]
    have := List.mem_map_of_mem (fun u : Txn =>
        if u.id = tOld.id then
          (⟨u.id, tNew.description, tNew.amount, tNew.ttype, tNew.date,
            tNew.category, u.bankAccount, u.creditCard, some i,
            u.isInvoicePayment⟩ : Txn)
        else u) hmem
    simpa using this
  · intro hsame
    rw [hvend] at hsame
    have hee : ed = vOld.endDate := by
      rw [hre] at hsame
      exact Option.some.inj hsame
    subst hee
    rcases hcases with ⟨w, hfw, hi, _, _⟩ | ⟨hfnone, _, _, _⟩
    · have hwmem := List.mem_of_find?_eq_some hfw
      have hwkey := List.find?_some hfw
      simp only [decide_eq_true_eq] at hwkey
      have hvw : vOld = w := invoice_key_unique hWF.2.2.1 hvmem hwmem
        (hvcard.trans hwkey.1.symm) hwkey.2.symm
      rw [hi, hvw]
    · exfalso
      have := List.find?_eq_none.mp hfnone vOld hvmem
      simp only [decide_eq_true_eq, not_and] at this
      exact this hvcard trivial
  · intro hdiff hii
    apply hdiff
    rw [hre, hvend]
    rcases hcases with ⟨w, hfw, hi, _, _⟩ | ⟨hfnone, hi, _, _⟩
    · have hwmem := List.mem_of_find?_eq_some hfw
      have hwkey := List.find?_some hfw
      simp only [decide_eq_true_eq] at hwkey
      have hvw : w = vOld := invoice_id_unique hWF.2.1 hwmem hvmem
        (by rw [← hi, hii])
      rw [← hwkey.2, hvw]
    · exfalso
      have := hWF.1 vOld hvmem
      omega

/-- The stored transaction of `wSt1` before the edit. -/
def wTxnOld : Txn :=
  ⟨0, "a", 50, TType.tOUT, ⟨2024, 1, 20⟩, none, none, some 7, some 0, false⟩

/-- The store after editing `wSt1`'s transaction to 2024-01-26 (a later
billing cycle) and re-saving: a second invoice is created and the
transaction is re-linked to it. -/
def wSt1CrossEdit : St :=
  ⟨[], [⟨0, 7, ⟨2024, 1, 25⟩, ⟨2024, 2, 10⟩, false, none⟩,
        ⟨1, 7, ⟨2024, 2, 25⟩, ⟨2024, 3, 10⟩, false, none⟩],
   [⟨0, "a", 50, TType.tOUT, ⟨2024, 1, 26⟩, none, none, some 7, some 1, false⟩],
   0, 2, 1⟩

/-- C10 counterexample: transaction 0 of `wSt1` is linked to invoice 0;
editing its date to 2024-01-26 (the next billing cycle) and re-saving
re-runs the resolution and re-links it to a freshly created invoice 1 —
the invoice assignment does not stay unchanged. -/
theorem c10_counterexample :
    (wSt1.transactions.find? (fun u => decide (u.id = 0))).map (fun u => u.invoice)
        = some (some 0)
    ∧ editCreditCardTxn wCard 0 ⟨"a", 50, TType.tOUT, ⟨2024, 1, 26⟩, none⟩ wSt1
        = some (wSt1CrossEdit, 1)
    ∧ (wSt1CrossEdit.transactions.find? (fun u => decide (u.id = 0))).map
          (fun u => u.invoice) = some (some 1)
    ∧ some (1 : Nat) ≠ some 0 := by
  refine ⟨by decide, by decide, by decide, by decide⟩

/-- The store after a same-cycle edit of `wSt1`'s transaction (new date
2024-01-21): the invoice assignment stays 0. -/
def wSt1SameEdit : St :=
  ⟨[], [⟨0, 7, ⟨2024, 1, 25⟩, ⟨2024, 2, 10⟩, false, none⟩],
   [⟨0, "a2", 60, TType.tOUT, ⟨2024, 1, 21⟩, none, none, some 7, some 0, false⟩],
   0, 1, 1⟩

/-- C10 witness: a same-cycle edit (date 2024-01-21) keeps invoice 0, and
the amended theorem's conclusions hold at this concrete input. -/
theorem c10_edit_reruns_resolution_witness :
    WF wSt1
    ∧ editCreditCardTxn wCard 0 ⟨"a2", 60, TType.tOUT, ⟨2024, 1, 21⟩, none⟩ wSt1
        = some (wSt1SameEdit, 0)
    ∧ ((wTxnOld ∈ wSt1.transactions → ∃ u ∈ wSt1SameEdit.transactions,
          u.id = wTxnOld.id ∧ u.invoice = some 0 ∧ u.date = ⟨2024, 1, 21⟩)
       ∧ (resolveEndDate wCard.closingDay ⟨2024, 1, 21⟩
             = resolveEndDate wCard.closingDay wTxnOld.date → 0 = 0)
       ∧ (resolveEndDate wCard.closingDay ⟨2024, 1, 21⟩
             ≠ resolveEndDate wCard.closingDay wTxnOld.date → 0 ≠ 0)) :=
  ⟨by decide, by decide,
   c10_edit_reruns_resolution wCard wSt1 (by decide) wTxnOld
     ⟨0, 7, ⟨2024, 1, 25⟩, ⟨2024, 2, 10⟩, false, none⟩ (by decide) (by decide)
     (by decide) ⟨"a2", 60, TType.tOUT, ⟨2024, 1, 21⟩, none⟩ wSt1SameEdit 0
     (by decide)⟩

theorem gcc_fields (s : St) (name : String) :
    (getOrCreateCategory s name).2.transactions = s.transactions
    ∧ (getOrCreateCategory s name).2.invoices = s.invoices
    ∧ (getOrCreateCategory s name).2.nextTxnId = s.nextTxnId
    ∧ (getOrCreateCategory s name).2.nextInvoiceId = s.nextInvoiceId := by
  unfold getOrCreateCategory
  cases s.categories.find? (fun c => decide (c.name = name)) with
  | none => exact ⟨rfl, rfl, rfl, rfl⟩
  | some c => exact ⟨rfl, rfl, rfl, rfl⟩

theorem gcc_mem (s : St) (name : String) :
    ∃ c ∈ (getOrCreateCategory s name).2.categories,
      c.id = (getOrCreateCategory s name).1 ∧ c.name = name := by
  unfold getOrCreateCategory
  cases hf : s.categories.find? (fun c => decide (c.name = name)) with
  | none =>
      exact ⟨⟨s.nextCategoryId, name⟩,
        List.mem_append_right _ (List.mem_singleton.mpr rfl), rfl, rfl⟩
  | some c =>
      refine ⟨c, List.mem_of_find?_eq_some hf, rfl, ?_⟩
      have := List.find?_some hf
      simpa using this

theorem pay_spec {s : St} {invId : Nat} {d : Date} {acct : Nat} {s' : St} {tp : Txn}
    (h : payInvoice s invId d acct = some (s', tp)) :
    ∃ inv, s.invoices.find? (fun v => decide (v.id = invId)) = some inv
      ∧ tp.id = s.nextTxnId
      ∧ tp.amount = invoiceTotal s.transactions invId
      ∧ tp.ttype = TType.tOUT ∧ tp.date = d ∧ tp.bankAccount = some acct
      ∧ tp.creditCard = none ∧ tp.invoice = none ∧ tp.isInvoicePayment = true
      ∧ (∃ c ∈ s'.categories, some c.id = tp.category
            ∧ c.name = paymentCategoryName)
      ∧ s'.transactions = s.transactions ++ [tp]
      ∧ s'.invoices = s.invoices.map (fun v =>
          if v.id = invId then ⟨v.id, v.cardId, v.endDate, v.dueDate, true, some d⟩
          else v) := by
  unfold payInvoice at h
  split at h
  · exact absurd h (by simp)
  · rename_i inv hfi
    rw [Option.some.injEq, Prod.mk.injEq] at h
    obtain ⟨hs', htp⟩ := h
    obtain ⟨hgt, hgi, hgn, _⟩ := gcc_fields s paymentCategoryName
    refine ⟨inv, hfi, ?_, ?_, ?_, ?_, ?_, ?_, ?_, ?_, ?_, ?_, ?_⟩
    · rw [← htp, hgn]
    · rw [← htp]
    · rw [← htp]
    · rw [← htp]
    · rw [← htp]
    · rw [← htp]
    · rw [← htp]
    · rw [← htp]
    · obtain ⟨c, hc, hcid, hcname⟩ := gcc_mem s paymentCategoryName
      refine ⟨c, ?_, ?_, hcname⟩
      · rw [← hs']
        exact hc
      · rw [← htp, hcid]
    · rw [← hs', ← htp, hgt]
    · rw [← hs', hgi]

/-- C4: paying an invoice creates exactly one new expense transaction whose
amount is the sum of the invoice's linked transactions (zero if none),
dated with the payment date, on the given bank account, categorised under
the reserved invoice-payment category and flagged as an invoice payment;
afterwards the invoice is paid with that payment date. -/
theorem c4_invoice_payment (s : St) (invId : Nat) (d : Date) (acct : Nat)
    (s' : St) (tp : Txn) (inv : Invoice)
    (hfind : s.invoices.find? (fun v => decide (v.id = invId)) = some inv)
    (hunpaid : inv.isPaid = false)
    (h : payInvoice s invId d acct = some (s', tp)) :
    s'.transactions = s.transactions ++ [tp]
    ∧ tp.amount = invoiceTotal s.transactions invId
    ∧ tp.ttype = TType.tOUT ∧ tp.date = d ∧ tp.bankAccount = some acct
    ∧ tp.isInvoicePayment = true
    ∧ (∃ c ∈ s'.categories, some c.id = tp.category ∧ c.name = paymentCategoryName)
    ∧ (∀ v ∈ s'.invoices, v.id = invId →
        v.isPaid = true ∧ v.paymentDate = some d) := by
  obtain ⟨inv', _, _, hamt, hty, hdate, hacct, _, _, hpay, hcat, htr, hinvmap⟩ :=
    pay_spec h
  refine ⟨htr, hamt, hty, hdate, hacct, hpay, hcat, ?_⟩
  intro v hv hvid
  rw [hinvmap] at hv
  obtain ⟨u, hu, hfu⟩ := List.mem_map.mp hv
  by_cases hui : u.id = invId
  · rw [if_pos hui] at hfu
    rw [← hfu]
    exact ⟨rfl, rfl⟩
  · rw [if_neg hui] at hfu
    rw [← hfu] at hvid
    exact absurd hvid hui

/-- A store holding one unpaid invoice (id 0) with no linked transactions,
used by the closed payment witnesses. -/
def wStInv : St :=
  ⟨[], [⟨0, 7, ⟨2024, 1, 25⟩, ⟨2024, 2, 10⟩, false, none⟩], [], 0, 1, 0⟩

/-- The store after paying invoice 0 of `wStInv` on 2024-02-05 from bank
account 3: the reserved category is created and one synthetic payment
transaction (amount 0, the empty linked-transaction sum) is recorded. -/
def wStInvPaid : St :=
  ⟨[⟨0, "Pagamento de Fatura"⟩],
   [⟨0, 7, ⟨2024, 1, 25⟩, ⟨2024, 2, 10⟩, true, some ⟨2024, 2, 5⟩⟩],
   [⟨0, "Fatura 0", 0, TType.tOUT, ⟨2024, 2, 5⟩, some 0, some 3, none, none, true⟩],
   1, 1, 1⟩

/-- The synthetic payment transaction created by that payment. -/
def wPayTxn : Txn :=
  ⟨0, "Fatura 0", 0, TType.tOUT, ⟨2024, 2, 5⟩, some 0, some 3, none, none, true⟩

/-- C4 witness: paying the unpaid invoice 0 of `wStInv` creates exactly the
expected payment transaction and marks the invoice paid. -/
theorem c4_invoice_payment_witness :
    wStInv.invoices.find? (fun v => decide (v.id = 0))
        = some ⟨0, 7, ⟨2024, 1, 25⟩, ⟨2024, 2, 10⟩, false, none⟩
    ∧ payInvoice wStInv 0 ⟨2024, 2, 5⟩ 3 = some (wStInvPaid, wPayTxn)
    ∧ (wStInvPaid.transactions = wStInv.transactions ++ [wPayTxn]
       ∧ wPayTxn.amount = invoiceTotal wStInv.transactions 0
       ∧ wPayTxn.ttype = TType.tOUT ∧ wPayTxn.date = ⟨2024, 2, 5⟩
       ∧ wPayTxn.bankAccount = some 3
       ∧ wPayTxn.isInvoicePayment = true
       ∧ (∃ c ∈ wStInvPaid.categories, some c.id = wPayTxn.category
            ∧ c.name = paymentCategoryName)
       ∧ (∀ v ∈ wStInvPaid.invoices, v.id = 0 →
            v.isPaid = true ∧ v.paymentDate = some ⟨2024, 2, 5⟩)) :=
  ⟨by decide, by decide,
   c4_invoice_payment wStInv 0 ⟨2024, 2, 5⟩ 3 wStInvPaid wPayTxn
     ⟨0, 7, ⟨2024, 1, 25⟩, ⟨2024, 2, 10⟩, false, none⟩
     (by decide) (by decide) (by decide)⟩

/-- The store after paying the *already paid* invoice 0 of `wStInvPaid` a
second time, on 2024-03-01. -/
def wStRepaid : St :=
  ⟨[⟨0, "Pagamento de Fatura"⟩],
   [⟨0, 7, ⟨2024, 1, 25⟩, ⟨2024, 2, 10⟩, true, some ⟨2024, 3, 1⟩⟩],
   [wPayTxn,
    ⟨1, "Fatura 0", 0, TType.tOUT, ⟨2024, 3, 1⟩, some 0, some 3, none, none, true⟩],
   1, 1, 2⟩

/-- C3: the source has no already-paid guard — paying invoice 0 of
`wStInvPaid`, whose `is_paid` is already `true`, succeeds: it creates a
second synthetic payment transaction and overwrites the invoice's
payment date, instead of failing with an `InvoiceAlreadyPaid` error. -/
theorem c3_no_already_paid_guard :
    ((wStInvPaid.invoices.find? (fun v => decide (v.id = 0))).map
        (fun v => v.isPaid)) = some true
    ∧ payInvoice wStInvPaid 0 ⟨2024, 3, 1⟩ 3
        = some (wStRepaid,
            ⟨1, "Fatura 0", 0, TType.tOUT, ⟨2024, 3, 1⟩, some 0, some 3,
             none, none, true⟩)
    ∧ wStRepaid.transactions.length = wStInvPaid.transactions.length + 1
    ∧ ((wStRepaid.invoices.find? (fun v => decide (v.id = 0))).map
        (fun v => v.paymentDate)) = some (some ⟨2024, 3, 1⟩) := by
  refine ⟨by decide, by decide, by decide, by decide⟩

/-- The realized-expense summand over an item list: the sum the view takes
over `items` for `realized_expenses`. -/
def realizedOutSum (l : List Item) : ℚ :=
  ((l.filter (fun it => decide (it.ttype = TType.tOUT ∧ it.isPredicted = false))).map
    (fun it => it.amount)).sum

theorem realizedExpenses_eq (s : St) (year : Int) (month : Nat) :
    (consolidatedSummary s year month).realizedExpenses
      = realizedOutSum (rawItems s year month) := rfl

theorem realizedOutSum_append (l1 l2 : List Item) :
    realizedOutSum (l1 ++ l2) = realizedOutSum l1 + realizedOutSum l2 := by
  unfold realizedOutSum
  rw [List.filter_append, List.map_append, List.sum_append]

theorem realizedOutSum_cons (x : Item) (l : List Item) :
    realizedOutSum (x :: l)
      = (if x.ttype = TType.tOUT ∧ x.isPredicted = false then x.amount else 0)
        + realizedOutSum l := by
  unfold realizedOutSum
  by_cases hx : x.ttype = TType.tOUT ∧ x.isPredicted = false
  · rw [List.filter_cons_of_pos (by simpa using hx), if_pos hx]
    rw [List.map_cons, List.sum_cons]
  · rw [List.filter_cons_of_neg (by simpa using hx), if_neg hx]
    ring_nf

theorem invoiceItem_congr {txs txs' : List Txn}
    (htot : ∀ j : Nat, invoiceTotal txs' j = invoiceTotal txs j) (v : Invoice) :
    invoiceItem txs' v = invoiceItem txs v := by
  unfold invoiceItem
  rw [htot]

theorem invoiceTotal_append_unlinked (txs : List Txn) (tp : Txn)
    (hnone : tp.invoice = none) (j : Nat) :
    invoiceTotal (txs ++ [tp]) j = invoiceTotal txs j := by
  unfold invoiceTotal
  rw [List.filter_append]
  rw [show List.filter (fun t => decide (t.invoice = some j)) [tp] = [] from by
    simp [hnone]]
  rw [List.append_nil]

theorem invPart_pay_sum (txs txs' : List Txn) (year : Int) (month : Nat)
    (invId : Nat) (d : Date)
    (htot : ∀ j : Nat, invoiceTotal txs' j = invoiceTotal txs j)
    (hdIn : inMonth year month d) :
    ∀ (l : List Invoice), l.Pairwise (fun a b => a.id ≠ b.id) →
      ∀ inv ∈ l, inv.id = invId → inv.isPaid = false →
        ¬ inMonth year month inv.dueDate →
        realizedOutSum (((l.map (fun v => if v.id = invId then
              (⟨v.id, v.cardId, v.endDate, v.dueDate, true, some d⟩ : Invoice)
            else v)).filter
            (fun v => decide (relevantInvoice year month v))).map (invoiceItem txs'))
          = realizedOutSum ((l.filter
              (fun v => decide (relevantInvoice year month v))).map (invoiceItem txs))
            + invoiceTotal txs invId := by
  intro l
  induction l with
  | nil =>
      intro _ inv hmem
      cases hmem
  | cons a t ih =>
      intro hp inv hmem hid hunpaid hdue
      rw [List.pairwise_cons] at hp
      rcases List.mem_cons.mp hmem with heq | hmt
      · subst heq
        simp only [List.map_cons]
        rw [if_pos hid]
        have hmapt : t.map (fun v => if v.id = invId then
            (⟨v.id, v.cardId, v.endDate, v.dueDate, true, some d⟩ : Invoice)
            else v) = t := by
          have hpt : ∀ b ∈ t, (if b.id = invId then
              (⟨b.id, b.cardId, b.endDate, b.dueDate, true, some d⟩ : Invoice)
              else b) = b := by
            intro b hb
            exact if_neg (fun hbid => (hp.1 b hb) (hid.trans hbid.symm))
          rw [List.map_congr_left hpt, List.map_id']
        rw [hmapt]
        have hrelA : relevantInvoice year month
            (⟨inv.id, inv.cardId, inv.endDate, inv.dueDate, true, some d⟩ : Invoice) :=
          Or.inr ⟨⟨d, rfl, hdIn⟩, rfl⟩
        have hrelAneg : ¬ relevantInvoice year month inv := by
          intro hr
          rcases hr with ⟨hin, _⟩ | ⟨_, hpaid⟩
          · exact hdue hin
          · rw [hunpaid] at hpaid
            cases hpaid
        rw [List.filter_cons_of_pos (by simpa using hrelA),
            List.filter_cons_of_neg (by simpa using hrelAneg)]
        rw [List.map_cons, realizedOutSum_cons]
        rw [if_pos ⟨rfl, rfl⟩]
        have hmapcongr : ((t.filter
            (fun v => decide (relevantInvoice year month v))).map (invoiceItem txs'))
            = ((t.filter
              (fun v => decide (relevantInvoice year month v))).map (invoiceItem txs)) :=
          List.map_congr_left (fun v _ => invoiceItem_congr htot v)
        rw [hmapcongr]
        rw [show (invoiceItem txs'
            (⟨inv.id, inv.cardId, inv.endDate, inv.dueDate, true, some d⟩ : Invoice)).amount
            = invoiceTotal txs invId from by
          unfold invoiceItem
          simp only
          rw [htot, hid]]
        ring
      · have haid : ¬ (a.id = invId) := fun h => (hp.1 inv hmt) (h.trans hid.symm)
        simp only [List.map_cons]
        rw [if_neg haid]
        by_cases hrela : relevantInvoice year month a
        · rw [List.filter_cons_of_pos (by simpa using hrela),
              List.filter_cons_of_pos (by simpa using hrela)]
          rw [List.map_cons, List.map_cons, realizedOutSum_cons, realizedOutSum_cons]
          rw [invoiceItem_congr htot a]
          rw [ih hp.2 inv hmt hid hunpaid hdue]
          ring
        · rw [List.filter_cons_of_neg (by simpa using hrela),
              List.filter_cons_of_neg (by simpa using hrela)]
          exact ih hp.2 inv hmt hid hunpaid hdue

theorem mem_sortedItems_iff (s : St) (year : Int) (month : Nat) (it : Item) :
    it ∈ sortedItems s year month ↔
      (∃ t ∈ s.transactions, inMonth year month t.date ∧ t.bankAccount ≠ none
          ∧ t.isInvoicePayment = false ∧ it = txnItem t)
      ∨ (∃ v ∈ s.invoices, relevantInvoice year month v
          ∧ it = invoiceItem s.transactions v) := by
  unfold sortedItems
  rw [List.mem_mergeSort]
  unfold rawItems bankTxnsOfMonth
  simp only [List.mem_append, List.mem_map, List.mem_filter, decide_eq_true_eq]
  constructor
  · rintro (⟨t, ⟨ht, h1, h2, h3⟩, he⟩ | ⟨v, ⟨hv, hrel⟩, he⟩)
    · exact Or.inl ⟨t, ht, h1, h2, h3, he.symm⟩
    · exact Or.inr ⟨v, hv, hrel, he.symm⟩
  · rintro (⟨t, ht, h1, h2, h3, he⟩ | ⟨v, hv, hrel, he⟩)
    · exact Or.inl ⟨t, ⟨ht, h1, h2, h3⟩, he.symm⟩
    · exact Or.inr ⟨v, ⟨hv, hrel⟩, he.symm⟩

/-- C8: the consolidated month view's items are exactly the month's
bank-account transactions with synthetic invoice-payment transactions
excluded, plus the invoices relevant to the month (due unpaid, or paid in
the month); after paying an invoice, the synthetic payment transaction is
excluded from the regular bank bucket, yet its amount still counts toward
the month's realized expense total (through the paid invoice's line). -/
theorem c8_aggregation_items (year : Int) (month : Nat)
    (s sp : St) (tp : Txn) (invId : Nat) (d : Date) (acct : Nat) (inv : Invoice)
    (hIds : s.invoices.Pairwise (fun a b => a.id ≠ b.id))
    (hfind : s.invoices.find? (fun v => decide (v.id = invId)) = some inv)
    (hunpaid : inv.isPaid = false)
    (hdueNot : ¬ inMonth year month inv.dueDate)
    (hdIn : inMonth year month d)
    (hpay : payInvoice s invId d acct = some (sp, tp)) :
    (∀ (s0 : St) (it : Item), it ∈ sortedItems s0 year month ↔
        (∃ t ∈ s0.transactions, inMonth year month t.date ∧ t.bankAccount ≠ none
            ∧ t.isInvoicePayment = false ∧ it = txnItem t)
        ∨ (∃ v ∈ s0.invoices, relevantInvoice year month v
            ∧ it = invoiceItem s0.transactions v))
    ∧ tp.isInvoicePayment = true
    ∧ bankTxnsOfMonth sp year month = bankTxnsOfMonth s year month
    ∧ (consolidatedSummary sp year month).realizedExpenses
        = (consolidatedSummary s year month).realizedExpenses + tp.amount := by
  obtain ⟨inv', hfind', _, hamt, _, _, _, _, hinvnone, hflag, _, htr, hinvmap⟩ :=
    pay_spec hpay
  have hmem : inv ∈ s.invoices := List.mem_of_find?_eq_some hfind
  have hInvId : inv.id = invId := by
    have := List.find?_some hfind
    simpa using this
  have htot : ∀ j : Nat, invoiceTotal (s.transactions ++ [tp]) j
      = invoiceTotal s.transactions j :=
    invoiceTotal_append_unlinked s.transactions tp hinvnone
  have hbank : bankTxnsOfMonth sp year month = bankTxnsOfMonth s year month := by
    unfold bankTxnsOfMonth
    rw [htr, List.filter_append]
    rw [show List.filter (fun t => decide (inMonth year month t.date
        ∧ t.bankAccount ≠ none ∧ t.isInvoicePayment = false)) [tp] = [] from by
      simp [hflag]]
    rw [List.append_nil]
  refine ⟨fun s0 it => mem_sortedItems_iff s0 year month it, hflag, hbank, ?_⟩
  rw [realizedExpenses_eq, realizedExpenses_eq]
  unfold rawItems
  rw [realizedOutSum_append, realizedOutSum_append, hbank, hinvmap, htr]
  rw [invPart_pay_sum s.transactions (s.transactions ++ [tp]) year month invId d
    htot hdIn s.invoices hIds inv hmem hInvId hunpaid hdueNot]
  rw [hamt]
  ring

/-- The store after paying invoice 0 of `wStInv` on 2024-03-01 (a month
after its due date) from bank account 3. -/
def wStInvPaidMar : St :=
  ⟨[⟨0, "Pagamento de Fatura"⟩],
   [⟨0, 7, ⟨2024, 1, 25⟩, ⟨2024, 2, 10⟩, true, some ⟨2024, 3, 1⟩⟩],
   [⟨0, "Fatura 0", 0, TType.tOUT, ⟨2024, 3, 1⟩, some 0, some 3, none, none, true⟩],
   1, 1, 1⟩

/-- The synthetic payment transaction created by that payment. -/
def wPayTxnMar : Txn :=
  ⟨0, "Fatura 0", 0, TType.tOUT, ⟨2024, 3, 1⟩, some 0, some 3, none, none, true⟩

/-- C8 witness: paying invoice 0 of `wStInv` on 2024-03-01 and aggregating
March 2024 — the payment transaction is excluded from the bank bucket,
yet the realized expense total grows by its amount. -/
theorem c8_aggregation_items_witness :
    wStInv.invoices.Pairwise (fun a b => a.id ≠ b.id)
    ∧ wStInv.invoices.find? (fun v => decide (v.id = 0))
        = some ⟨0, 7, ⟨2024, 1, 25⟩, ⟨2024, 2, 10⟩, false, none⟩
    ∧ (⟨0, 7, ⟨2024, 1, 25⟩, ⟨2024, 2, 10⟩, false, none⟩ : Invoice).isPaid = false
    ∧ ¬ inMonth 2024 3 (⟨2024, 2, 10⟩ : Date)
    ∧ inMonth 2024 3 (⟨2024, 3, 1⟩ : Date)
    ∧ payInvoice wStInv 0 ⟨2024, 3, 1⟩ 3 = some (wStInvPaidMar, wPayTxnMar)
    ∧ ((∀ (s0 : St) (it : Item), it ∈ sortedItems s0 2024 3 ↔
          (∃ t ∈ s0.transactions, inMonth 2024 3 t.date ∧ t.bankAccount ≠ none
              ∧ t.isInvoicePayment = false ∧ it = txnItem t)
          ∨ (∃ v ∈ s0.invoices, relevantInvoice 2024 3 v
              ∧ it = invoiceItem s0.transactions v))
       ∧ wPayTxnMar.isInvoicePayment = true
       ∧ bankTxnsOfMonth wStInvPaidMar 2024 3 = bankTxnsOfMonth wStInv 2024 3
       ∧ (consolidatedSummary wStInvPaidMar 2024 3).realizedExpenses
           = (consolidatedSummary wStInv 2024 3).realizedExpenses
             + wPayTxnMar.amount) :=
  ⟨by decide, by decide, by decide, by decide, by decide, by decide,
   c8_aggregation_items 2024 3 wStInv wStInvPaidMar wPayTxnMar 0 ⟨2024, 3, 1⟩ 3
     ⟨0, 7, ⟨2024, 1, 25⟩, ⟨2024, 2, 10⟩, false, none⟩
     (by decide) (by decide) (by decide) (by decide) (by decide) (by decide)⟩
